import Mathlib

/-!
Shallow Lean embedding of the order lifecycle and incentive ledger of the
white-agency-app backend (src/server/index.js), together with its promo
redemption endpoints and the TronScan payment-verification classifier.

Conventions of the embedding:
* SQLite REAL money columns are modelled as `ℚ`.
* The `users` table is a total map `Nat → User` whose default row has all
  balances zero, matching lazy user creation with zero defaults.
* `orders` is the list of rows in insertion (= `created_at`) order, so
  `ORDER BY created_at LIMIT 1` is the head of the per-user filter.
* JavaScript truthiness on a numeric column (`a || b`) is `if a = 0 then
  b else a` (`jsOr`); on a string it is emptiness (`jsOrStr`).
* Notification inserts and Telegram sends have no effect on the modelled
  state and are omitted.
-/

namespace WhiteAgency

/-- Loyalty level enum of the `users.level` column. -/
inductive Level where
  | none
  | bronze
  | silver
  | gold
  | platinum
  deriving DecidableEq, Repr

/-- A `users` row: balances, accumulators and referral linkage. -/
structure User where
  cashback : ℚ := 0
  totalSpent : ℚ := 0
  level : Level := Level.none
  referralEarnings : ℚ := 0
  referredBy : Option Nat := Option.none
  trc20Wallet : Option String := Option.none
  deriving DecidableEq, Repr

/-- Typed stand-in for the free-text `description` column of
`cashback_history` rows (the source interpolates the order id into a
message string; only which message and which id matter here). -/
inductive HDesc where
  | orderPayment (orderId : Nat)
  | orderCashback (orderId : Nat)
  | withdrawalPayout (withdrawalId : Nat)
  | reviewBonus
  deriving DecidableEq, Repr

/-- A `cashback_history` row: the append-only reconciliation ledger. -/
structure CashbackEntry where
  userId : Nat
  amount : ℚ
  description : HDesc
  deriving DecidableEq, Repr

/-- An `orders` row (monetary and linkage columns of the legacy
single-service schema used by `POST /api/orders`). -/
structure Order where
  id : Nat
  userId : Nat
  basePrice : ℚ
  discount : ℚ
  cashbackUsed : ℚ
  total : ℚ
  cashbackEarned : ℚ
  status : String
  txHash : Option String
  promoCode : Option String
  discountAmount : ℚ
  subtotal : ℚ
  deriving DecidableEq, Repr

/-- An `invoices` row. -/
structure Invoice where
  orderId : Nat
  userId : Nat
  amount : ℚ
  discountAmount : ℚ
  finalAmount : ℚ
  status : String
  txHash : Option String
  deriving DecidableEq, Repr

/-- A `referrals` row: one per (referrer, referred) pair. -/
structure Referral where
  referrerId : Nat
  referredId : Nat
  earnings : ℚ
  deriving DecidableEq, Repr

/-- A `withdrawals` row. -/
structure Withdrawal where
  userId : Nat
  amount : ℚ
  wtype : String
  status : String
  txHash : Option String
  deriving DecidableEq, Repr

/-- The ledger store: the tables the order/incentive core touches. -/
structure DB where
  users : Nat → User
  orders : List Order
  invoices : Nat → Option Invoice
  history : List CashbackEntry
  referrals : List Referral
  withdrawals : Nat → Option Withdrawal

/-- The empty store: no rows, every user at the column defaults. -/
def initDB : DB where
  users := fun _ => {}
  orders := []
  invoices := fun _ => Option.none
  history := []
  referrals := []
  withdrawals := fun _ => Option.none

/-- Read-modify-write of one `users` row. -/
def DB.modifyUser (db : DB) (uid : Nat) (f : User → User) : DB :=
  { db with users := fun i => if i = uid then f (db.users i) else db.users i }

/-- JavaScript `a || b` on numeric column values (0 and NULL are falsy;
NULL never arises for the columns modelled here). -/
def jsOr (a b : ℚ) : ℚ := if a = 0 then b else a

/-- `SELECT * FROM orders WHERE user_id = ?` in creation order. -/
def userOrders (db : DB) (uid : Nat) : List Order :=
  db.orders.filter (fun o => o.userId == uid)

/-- The pure `totalSpent → level` threshold function inside
`updateUserLevel` (index.js lines 941-945). -/
def levelFor (spent : ℚ) : Level :=
  if spent ≥ 10000 then Level.platinum
  else if spent ≥ 1000 then Level.gold
  else if spent ≥ 500 then Level.silver
  else if spent ≥ 100 then Level.bronze
  else Level.none

/-- `updateUserLevel` (index.js lines 934-965): recompute the level from
`total_spent`; write it back only when it changed and is not `none`. -/
def updateUserLevel (db : DB) (uid : Nat) : DB :=
  let u := db.users uid
  let newLevel := levelFor u.totalSpent
  if newLevel ≠ u.level ∧ newLevel ≠ Level.none then
    db.modifyUser uid (fun v => { v with level := newLevel })
  else db

/-- The two referral writes: add the commission to the referrer's
`referral_earnings` and overwrite the (referrer, referred) pair's
`referrals.earnings` with it. -/
def referralCredit (db : DB) (uid refId : Nat) (referralAmount : ℚ) : DB :=
  let db1 := db.modifyUser refId
    (fun v => { v with referralEarnings := v.referralEarnings + referralAmount })
  { db1 with referrals := db1.referrals.map (fun r =>
      if r.referrerId = refId ∧ r.referredId = uid then
        { r with earnings := referralAmount }
      else r) }

/-- `processReferralPayment` (index.js lines 978-1033): pay the referrer
25% of the referred user's first order's `subtotal || base_price || total`
exactly when that user now has exactly one order on record, crediting
`referral_earnings` and overwriting the pair's `referrals.earnings`. -/
def processReferralPayment (db : DB) (uid : Nat) : DB :=
  match (db.users uid).referredBy with
  | Option.none => db
  | some refId =>
    if (userOrders db uid).length ≠ 1 then db
    else
      match (userOrders db uid).head? with
      | Option.none => db
      | some firstOrder =>
        referralCredit db uid refId
          (jsOr firstOrder.subtotal (jsOr firstOrder.basePrice firstOrder.total) * (25 / 100))

/-- Client request body of `POST /api/orders` (monetary fields). -/
structure OrderReq where
  id : Nat
  basePrice : ℚ
  discount : ℚ
  cashbackUsed : ℚ
  total : ℚ
  cashbackEarned : ℚ
  promoCode : Option String := Option.none
  promoDiscount : ℚ := 0
  referralDiscount : ℚ := 0
  deriving DecidableEq, Repr

/-- `POST /api/orders` (index.js lines 472-546): insert the order with
status `pending` and `subtotal := basePrice`; when `cashbackUsed > 0`,
debit it from the user's cashback and append a negative ledger entry.
No reward, total-spent or referral processing happens here. -/
def createOrder (db : DB) (uid : Nat) (req : OrderReq) : DB :=
  let o : Order :=
    { id := req.id
      userId := uid
      basePrice := req.basePrice
      discount := req.discount
      cashbackUsed := req.cashbackUsed
      total := req.total
      cashbackEarned := req.cashbackEarned
      status := "pending"
      txHash := Option.none
      promoCode := req.promoCode
      discountAmount := req.promoDiscount + req.referralDiscount
      subtotal := req.basePrice }
  let db1 := { db with orders := db.orders ++ [o] }
  if req.cashbackUsed > 0 then
    let db2 := db1.modifyUser uid (fun v => { v with cashback := v.cashback - req.cashbackUsed })
    { db2 with history := db2.history ++ [⟨uid, -req.cashbackUsed, HDesc.orderPayment req.id⟩] }
  else db1

/-- `POST /api/admin/invoices` (index.js lines 1427-1499): insert an
`awaiting_payment` invoice with `finalAmount = amount - discountAmount`
and move the order to `awaiting_payment`. -/
def createInvoice (db : DB) (invId orderId uid : Nat) (amount discountAmount : ℚ) : DB :=
  let inv : Invoice :=
    { orderId := orderId
      userId := uid
      amount := amount
      discountAmount := discountAmount
      finalAmount := amount - discountAmount
      status := "awaiting_payment"
      txHash := Option.none }
  let db1 := { db with invoices := fun i => if i = invId then some inv else db.invoices i }
  { db1 with orders := db1.orders.map (fun o =>
      if o.id = orderId then { o with status := "awaiting_payment" } else o) }

/-- Step 1 of `POST /api/invoices/:id/confirm`: mark the invoice paid. -/
def confirmMarkPaid (db : DB) (invId : Nat) (inv : Invoice) : DB :=
  { db with invoices := fun i => if i = invId then some { inv with status := "paid" } else db.invoices i }

/-- Step 2 of the confirm endpoint: move the order to `working` and stamp
the verified tx hash. -/
def confirmOrderWorking (db : DB) (inv : Invoice) : DB :=
  { db with orders := db.orders.map (fun o =>
      if o.id = inv.orderId then { o with status := "working", txHash := inv.txHash } else o) }

/-- Step 3 of the confirm endpoint: credit 5% cashback, add the invoice
amount to `total_spent`, and append the positive ledger entry. -/
def confirmRewards (db : DB) (inv : Invoice) : DB :=
  let cashbackAmount := inv.amount * (5 / 100)
  let db1 := db.modifyUser inv.userId (fun v =>
    { v with
      cashback := v.cashback + cashbackAmount
      totalSpent := v.totalSpent + inv.amount })
  { db1 with history := db1.history ++ [⟨inv.userId, cashbackAmount, HDesc.orderCashback inv.orderId⟩] }

/-- `POST /api/invoices/:id/confirm` (index.js lines 1551-1610): look the
invoice up (404 if absent — with NO check of its current status), mark it
paid, move the order to `working`, credit rewards, re-evaluate the level,
and run the referral payout. -/
def confirmInvoice (db : DB) (invId : Nat) : DB :=
  match db.invoices invId with
  | Option.none => db
  | some inv =>
    processReferralPayment
      (updateUserLevel
        (confirmRewards (confirmOrderWorking (confirmMarkPaid db invId inv) inv) inv)
        inv.userId)
      inv.userId

/-- `POST /api/admin/users/:id/cashback` (index.js lines 1751-1767): add
the given amount to the user's cashback balance. No `cashback_history`
row is written by this endpoint. -/
def adminAddCashback (db : DB) (uid : Nat) (amount : ℚ) : DB :=
  db.modifyUser uid (fun v => { v with cashback := v.cashback + amount })

/-- `POST /api/withdrawal-request` (index.js lines 1772-1837): require a
wallet, a positive amount, and a sufficient current balance of the
requested type; insert a `pending` withdrawal. No balance is debited. -/
def requestWithdrawal (db : DB) (uid wId : Nat) (wtype : String) (amount : ℚ) : DB :=
  let u := db.users uid
  match u.trc20Wallet with
  | Option.none => db
  | some _ =>
    if amount ≤ 0 then db
    else if wtype = "cashback" then
      if u.cashback < amount then db
      else { db with withdrawals := fun i =>
        if i = wId then some ⟨uid, amount, wtype, "pending", Option.none⟩ else db.withdrawals i }
    else if wtype = "referral" then
      if u.referralEarnings < amount then db
      else { db with withdrawals := fun i =>
        if i = wId then some ⟨uid, amount, wtype, "pending", Option.none⟩ else db.withdrawals i }
    else db

/-- `POST /api/admin/withdrawals/:id/process` (index.js lines 1857-1905):
only `pending` withdrawals are processed; mark completed, then debit the
corresponding balance clamped at zero (`Math.max(0, balance - amount)`);
the cashback type also appends a `-amount` ledger entry. -/
def processWithdrawal (db : DB) (wId : Nat) (txHash : Option String) : DB :=
  match db.withdrawals wId with
  | Option.none => db
  | some w =>
    if w.status ≠ "pending" then db
    else
      let db1 := { db with withdrawals := fun i =>
        if i = wId then some { w with status := "completed", txHash := txHash } else db.withdrawals i }
      if w.wtype = "cashback" then
        let db2 := db1.modifyUser w.userId (fun v => { v with cashback := max 0 (v.cashback - w.amount) })
        { db2 with history := db2.history ++ [⟨w.userId, -w.amount, HDesc.withdrawalPayout wId⟩] }
      else if w.wtype = "referral" then
        db1.modifyUser w.userId (fun v => { v with referralEarnings := max 0 (v.referralEarnings - w.amount) })
      else db1

/-- `POST /api/admin/withdrawals/:id/cancel` (index.js lines 1908-1941):
only `pending` withdrawals; mark cancelled, no balance adjustment. -/
def cancelWithdrawal (db : DB) (wId : Nat) : DB :=
  match db.withdrawals wId with
  | Option.none => db
  | some w =>
    if w.status ≠ "pending" then db
    else { db with withdrawals := fun i =>
      if i = wId then some { w with status := "cancelled" } else db.withdrawals i }

/-! ## Promo code endpoints -/

/-- A `promo_codes` row. -/
structure PromoCode where
  id : Nat
  code : String
  discountPercent : ℚ
  maxUses : Option Nat
  expiresAt : Option Nat
  currentUses : Nat
  isActive : Bool
  deriving DecidableEq, Repr

/-- A `promo_uses` row, appended on every redemption. -/
structure PromoUse where
  promoId : Nat
  userId : Nat
  orderId : Nat
  deriving DecidableEq, Repr

/-- The promo tables. -/
structure PromoDB where
  promos : List PromoCode
  uses : List PromoUse
  deriving DecidableEq, Repr

/-- Uppercase normalization applied to incoming codes. -/
def upperStr (s : String) : String := ⟨s.data.map Char.toUpper⟩

/-- `SELECT * FROM promo_codes WHERE code = ? AND is_active = 1`. -/
def findPromo (ps : List PromoCode) (code : String) : Option PromoCode :=
  ps.find? (fun p => p.code == code && p.isActive)

/-- Outcome of the read-only validity check `GET /api/promo/:code`. -/
inductive PromoCheck where
  | notFound
  | expired
  | exhausted
  | valid (code : String) (discount : ℚ)
  deriving DecidableEq, Repr

/-- `promo.expires_at && new Date(promo.expires_at) < new Date()`:
truthy (set) expiry that lies in the past. -/
def PromoCode.isExpired (p : PromoCode) (now : Nat) : Bool :=
  match p.expiresAt with
  | some t => t < now
  | Option.none => false

/-- `promo.max_uses && promo.current_uses >= promo.max_uses`: note that a
`max_uses` of 0 or NULL is falsy, i.e. unlimited. -/
def PromoCode.isExhausted (p : PromoCode) : Bool :=
  match p.maxUses with
  | some m => m != 0 && p.currentUses ≥ m
  | Option.none => false

/-- `GET /api/promo/:code` (index.js lines 1689-1717): look up the active
code, then reject expired (`expires_at` set and past) or exhausted
(`max_uses` truthy and `current_uses >= max_uses`) codes. -/
def checkPromo (pdb : PromoDB) (now : Nat) (code : String) : PromoCheck :=
  match findPromo pdb.promos (upperStr code) with
  | Option.none => PromoCheck.notFound
  | some p =>
    if p.isExpired now then PromoCheck.expired
    else if p.isExhausted then PromoCheck.exhausted
    else PromoCheck.valid p.code p.discountPercent

/-- Outcome of `POST /api/promo/apply`. -/
inductive PromoApply where
  | failure
  | success (discount : ℚ)
  deriving DecidableEq, Repr

/-- `POST /api/promo/apply` (index.js lines 1720-1748): look up the active
code; if found, unconditionally increment `current_uses` and append a
`promo_uses` row. (The endpoint performs no expiry or max-use check.) -/
def applyPromo (pdb : PromoDB) (code : String) (userId orderId : Nat) : PromoDB × PromoApply :=
  match findPromo pdb.promos (upperStr code) with
  | Option.none => (pdb, PromoApply.failure)
  | some p =>
    ({ promos := pdb.promos.map (fun q =>
         if q.id = p.id then { q with currentUses := q.currentUses + 1 } else q)
       uses := pdb.uses ++ [⟨p.id, userId, orderId⟩] },
     PromoApply.success p.discountPercent)

/-! ## TronScan payment verification -/

/-- The `contractData` block of a TronScan transaction-info payload. -/
structure ContractData where
  amount : Option ℚ
  toAddress : Option String
  deriving DecidableEq, Repr

/-- The `trigger_info.parameter` block of the alternative payload shape
(`_value` modelled post-`parseInt`). -/
structure TriggerParam where
  value : Option Int
  toAddr : Option String
  deriving DecidableEq, Repr

/-- The fields of a TronScan transaction-info payload the verifier reads. -/
structure TxData where
  confirmed : Bool
  contractData : Option ContractData
  triggerParam : Option TriggerParam
  toAddress : Option String
  timestamp : Nat
  deriving DecidableEq, Repr

/-- JavaScript `a || b` on strings (empty string is falsy). -/
def jsOrStr (a b : String) : String := if a = "" then b else a

/-- The `trigger_info.parameter` fallback of the amount/recipient
extraction (index.js lines 2024-2033). -/
def fallbackTrigger (tx : TxData) : ℚ × String :=
  match tx.triggerParam with
  | Option.none => (0, "")
  | some p =>
    ((match p.value with
      | some v => (v : ℚ) / 1000000
      | Option.none => 0),
     p.toAddr.getD "")

/-- Amount/recipient extraction (index.js lines 2016-2033): prefer
`contractData.amount` (6-decimal smallest units) with recipient
`contractData.to_address || txData.toAddress`; otherwise fall back to
`trigger_info.parameter`; otherwise amount 0 and empty recipient. -/
def extractTransfer (tx : TxData) : ℚ × String :=
  match tx.contractData with
  | some cd =>
    match cd.amount with
    | some a =>
      if a ≠ 0 then (a / 1000000, jsOrStr (cd.toAddress.getD "") (tx.toAddress.getD ""))
      else fallbackTrigger tx
    | Option.none => fallbackTrigger tx
  | Option.none => fallbackTrigger tx

/-- The distinct results of `POST /api/verify-tronscan`: one constructor
per `verified:false` reason, plus the `verified:true` payload. -/
inductive VerifyResult where
  | notFound
  | notConfirmed
  | amountMismatch (expected found : ℚ)
  | noRecipient
  | recipientMismatch (expected got : String)
  | verifiedOk (amount : ℚ) (recipient : String) (confirmed : Bool) (timestamp : Nat)
  deriving DecidableEq, Repr

/-- Lowercase normalization used for the address comparison. -/
def lowerStr (s : String) : String := ⟨s.data.map Char.toLower⟩

/-- The recipient checks and the success payload (index.js lines
2048-2070). -/
def recipientCheck (tx : TxData) (transferAmount : ℚ) (transferTo recipientAddress : String) :
    VerifyResult :=
  if transferTo = "" then VerifyResult.noRecipient
  else if lowerStr transferTo ≠ lowerStr recipientAddress then
    VerifyResult.recipientMismatch recipientAddress transferTo
  else VerifyResult.verifiedOk transferAmount transferTo tx.confirmed tx.timestamp

/-- `POST /api/verify-tronscan` (index.js lines 1967-2079) as a pure
classifier of the fetched payload (`Option.none` models both a non-OK
indexer response and a `NOT_FOUND` body): not-found, then unconfirmed,
then — only when an expected amount was supplied (truthy) AND the
extracted amount is positive — the 1% amount tolerance, then the
mandatory recipient checks. -/
def verifyTronscan (resp : Option TxData) (expectedAmount : Option ℚ)
    (recipientAddress : String) : VerifyResult :=
  match resp with
  | Option.none => VerifyResult.notFound
  | some tx =>
    if tx.confirmed = false then VerifyResult.notConfirmed
    else
      let transferAmount := (extractTransfer tx).1
      let transferTo := (extractTransfer tx).2
      match expectedAmount with
      | some e =>
        if e ≠ 0 ∧ transferAmount > 0 ∧ |transferAmount - e| > e * (1 / 100) then
          VerifyResult.amountMismatch e transferAmount
        else recipientCheck tx transferAmount transferTo recipientAddress
      | Option.none => recipientCheck tx transferAmount transferTo recipientAddress

/-! ## Operation sequences over the ledger store -/

/-- The operations of the order/incentive flows named by the invariants:
order creation, invoice issue, payment confirmation (reward accrual), and
the withdrawal workflow. -/
inductive Op where
  | createOrder (uid : Nat) (req : OrderReq)
  | createInvoice (invId orderId uid : Nat) (amount discountAmount : ℚ)
  | confirmInvoice (invId : Nat)
  | requestWithdrawal (uid wId : Nat) (wtype : String) (amount : ℚ)
  | processWithdrawal (wId : Nat) (txHash : Option String)
  | cancelWithdrawal (wId : Nat)

/-- Dispatch one operation to its endpoint handler. -/
def step (db : DB) : Op → DB
  | Op.createOrder uid req => createOrder db uid req
  | Op.createInvoice invId orderId uid amount discountAmount =>
      createInvoice db invId orderId uid amount discountAmount
  | Op.confirmInvoice invId => confirmInvoice db invId
  | Op.requestWithdrawal uid wId wtype amount => requestWithdrawal db uid wId wtype amount
  | Op.processWithdrawal wId txHash => processWithdrawal db wId txHash
  | Op.cancelWithdrawal wId => cancelWithdrawal db wId

/-- Run a sequence of operations left to right. -/
def runOps (db : DB) : List Op → DB
  | [] => db
  | op :: rest => runOps (step db op) rest

/-- Both balances of one user row are non-negative. -/
def User.balancesNonNeg (u : User) : Prop :=
  0 ≤ u.cashback ∧ 0 ≤ u.referralEarnings

/-- Every user's cashback and referral-earnings balances are
non-negative. -/
def NonNegDB (db : DB) : Prop :=
  ∀ uid, (db.users uid).balancesNonNeg

/-- The monetary columns of an order row that the referral payout reads
are non-negative. -/
def Order.fieldsNonNeg (o : Order) : Prop :=
  0 ≤ o.subtotal ∧ 0 ≤ o.basePrice ∧ 0 ≤ o.total

/-- The inductive store invariant: non-negative balances, non-negative
order monetary columns, non-negative invoice amounts. -/
def InvariantDB (db : DB) : Prop :=
  NonNegDB db ∧ (∀ o ∈ db.orders, o.fieldsNonNeg) ∧
    (∀ i inv, db.invoices i = some inv → 0 ≤ inv.amount)

/-- Request-time validity of one operation: monetary inputs are
non-negative and an order's redeemed cashback is covered by the user's
current balance. -/
def GoodOp (db : DB) : Op → Prop
  | Op.createOrder uid req =>
      0 ≤ req.basePrice ∧ 0 ≤ req.total ∧ 0 ≤ req.cashbackUsed ∧
        req.cashbackUsed ≤ (db.users uid).cashback
  | Op.createInvoice _ _ _ amount _ => 0 ≤ amount
  | _ => True

/-- Every operation of the sequence is valid in the state it runs in. -/
def GoodOps (db : DB) : List Op → Prop
  | [] => True
  | op :: rest => GoodOp db op ∧ GoodOps (step db op) rest

/-! ## Reconciliation view -/

/-- Running total of a user's `cashback_history` ledger entries: the
reconciliation value the spec says must equal the `cashback` balance. -/
def ledgerTotal (db : DB) (uid : Nat) : ℚ :=
  ((db.history.filter (fun e => e.userId == uid)).map CashbackEntry.amount).sum

/-! ## Concrete fixtures -/

/-- A $150 order of user 1, already invoiced. -/
def c1order : Order :=
  { id := 1, userId := 1, basePrice := 150, discount := 0, cashbackUsed := 0, total := 150,
    cashbackEarned := 0, status := "awaiting_payment", txHash := Option.none,
    promoCode := Option.none, discountAmount := 0, subtotal := 150 }

/-- The $150 invoice for `c1order`, still awaiting payment. -/
def c1inv : Invoice :=
  { orderId := 1, userId := 1, amount := 150, discountAmount := 0, finalAmount := 150,
    status := "awaiting_payment", txHash := some "abc" }

/-- `c1order` after the first confirm: status `working`, tx hash set. -/
def c1orderW : Order := { c1order with status := "working", txHash := some "abc" }

/-- `c1inv` after the first confirm: status `paid`. -/
def c1paidInv : Invoice := { c1inv with status := "paid" }

/-- The store exactly as the first successful confirm of invoice 1
leaves it: invoice 1 already `paid`, the $150 credited once (totalSpent
150, cashback 7.5, bronze), the referrer (user 2) paid 37.5 once. -/
def c1dbPaid : DB :=
  { users := fun i =>
      if i = 1 then
        { cashback := 15 / 2, totalSpent := 150, level := Level.bronze, referredBy := some 2 }
      else if i = 2 then { referralEarnings := 75 / 2 } else {}
    orders := [c1orderW]
    invoices := fun i => if i = 1 then some c1paidInv else Option.none
    history := [⟨1, 15 / 2, HDesc.orderCashback 1⟩]
    referrals := [⟨2, 1, 75 / 2⟩]
    withdrawals := fun _ => Option.none }

/-- User B's first order: subtotal $200, promo discount $30, total $170. -/
def c4order : Order :=
  { id := 1, userId := 1, basePrice := 200, discount := 30, cashbackUsed := 0, total := 170,
    cashbackEarned := 0, status := "awaiting_payment", txHash := Option.none,
    promoCode := some "SAVE10", discountAmount := 30, subtotal := 200 }

/-- The $170 invoice for `c4order`. -/
def c4inv : Invoice :=
  { orderId := 1, userId := 1, amount := 170, discountAmount := 0, finalAmount := 170,
    status := "awaiting_payment", txHash := Option.none }

/-- Store for the referral-commission scenario: user 1 referred by
user 2, exactly one order (subtotal 200, total 170) and its invoice. -/
def c4db : DB :=
  { users := fun i => if i = 1 then { referredBy := some 2 } else {}
    orders := [c4order]
    invoices := fun i => if i = 1 then some c4inv else Option.none
    history := []
    referrals := [⟨2, 1, 0⟩]
    withdrawals := fun _ => Option.none }

/-- A second, later-created order of the same referred user. -/
def c5order2 : Order :=
  { id := 2, userId := 1, basePrice := 300, discount := 0, cashbackUsed := 0, total := 300,
    cashbackEarned := 0, status := "awaiting_payment", txHash := Option.none,
    promoCode := Option.none, discountAmount := 0, subtotal := 300 }

/-- The invoice of the second order. -/
def c5inv : Invoice :=
  { orderId := 2, userId := 1, amount := 300, discountAmount := 0, finalAmount := 300,
    status := "awaiting_payment", txHash := Option.none }

/-- Store after the referred user's first order was already commissioned:
two orders on record, invoice 2 for the second one, referrer user 2
holding 50 of earnings. -/
def c5db : DB :=
  { users := fun i =>
      if i = 1 then { referredBy := some 2 }
      else if i = 2 then { referralEarnings := 50 } else {}
    orders := [c4order, c5order2]
    invoices := fun i => if i = 2 then some c5inv else Option.none
    history := []
    referrals := [⟨2, 1, 50⟩]
    withdrawals := fun _ => Option.none }

/-- A $150 invoice for a fresh user (no referrer, `totalSpent = 0`). -/
def c6inv : Invoice :=
  { orderId := 1, userId := 1, amount := 150, discountAmount := 0, finalAmount := 150,
    status := "awaiting_payment", txHash := Option.none }

/-- Store for the level/cashback accrual scenario. -/
def c6db : DB :=
  { users := fun _ => {}
    orders := []
    invoices := fun i => if i = 1 then some c6inv else Option.none
    history := []
    referrals := []
    withdrawals := fun _ => Option.none }

/-- Store with user 1 holding a cashback balance of 10. -/
def c8db : DB :=
  { users := fun i => if i = 1 then { cashback := 10 } else {}
    orders := []
    invoices := fun _ => Option.none
    history := []
    referrals := []
    withdrawals := fun _ => Option.none }

/-- Order request redeeming 5 of cashback. -/
def c8req : OrderReq :=
  { id := 7, basePrice := 100, discount := 0, cashbackUsed := 5, total := 100,
    cashbackEarned := 5 }

/-- Order request redeeming 5 of cashback against an empty balance. -/
def c2req : OrderReq :=
  { id := 1, basePrice := 10, discount := 0, cashbackUsed := 5, total := 10,
    cashbackEarned := 0 }

/-- Order request that redeems no cashback. -/
def c2reqOk : OrderReq :=
  { id := 1, basePrice := 100, discount := 0, cashbackUsed := 0, total := 100,
    cashbackEarned := 5 }

/-- A valid sequence: create a $100 order, invoice it, confirm payment. -/
def c2ops : List Op :=
  [Op.createOrder 1 c2reqOk, Op.createInvoice 1 1 1 100 0, Op.confirmInvoice 1]

/-- Promo code SAVE10 with `maxUses = 1`, not yet used. -/
def save10 : PromoCode :=
  { id := 1, code := "SAVE10", discountPercent := 10, maxUses := some 1,
    expiresAt := Option.none, currentUses := 0, isActive := true }

/-- Promo store holding only SAVE10. -/
def pdb0 : PromoDB := ⟨[save10], []⟩

/-- Promo store after the first redemption of SAVE10. -/
def pdb1 : PromoDB := (applyPromo pdb0 "SAVE10" 1 1).1

/-- Confirmed transfer of $98 to TDEST (6-decimal smallest units). -/
def tx98 : TxData :=
  { confirmed := true, contractData := some ⟨some 98000000, some "TDEST"⟩,
    triggerParam := Option.none, toAddress := Option.none, timestamp := 500 }

/-- Confirmed transfer of $100 to the wrong address TOTHER. -/
def txWrong : TxData :=
  { confirmed := true, contractData := some ⟨some 100000000, some "TOTHER"⟩,
    triggerParam := Option.none, toAddress := Option.none, timestamp := 600 }

/-- Confirmed payload with no extractable recipient. -/
def txNoRecip : TxData :=
  { confirmed := true, contractData := Option.none, triggerParam := Option.none,
    toAddress := some "TDEST", timestamp := 700 }

/-- Confirmed transfer of $100 to TDest. -/
def txGood : TxData :=
  { confirmed := true, contractData := some ⟨some 100000000, some "TDest"⟩,
    triggerParam := Option.none, toAddress := Option.none, timestamp := 800 }

/-- A not-yet-confirmed transaction. -/
def txUnconfirmed : TxData :=
  { confirmed := false, contractData := some ⟨some 100000000, some "TDEST"⟩,
    triggerParam := Option.none, toAddress := Option.none, timestamp := 900 }

/-- Confirmed payload whose amount is unextractable (`_value` absent) but
whose recipient TADDR is extractable. -/
def txZeroAmt : TxData :=
  { confirmed := true, contractData := Option.none,
    triggerParam := some ⟨Option.none, some "TADDR"⟩, toAddress := Option.none,
    timestamp := 950 }

/-! ## Projection lemmas -/

theorem modifyUser_users (db : DB) (uid : Nat) (f : User → User) (i : Nat) :
    (db.modifyUser uid f).users i = if i = uid then f (db.users i) else db.users i := rfl

theorem modifyUser_orders (db : DB) (uid : Nat) (f : User → User) :
    (db.modifyUser uid f).orders = db.orders := rfl

theorem modifyUser_invoices (db : DB) (uid : Nat) (f : User → User) :
    (db.modifyUser uid f).invoices = db.invoices := rfl

theorem modifyUser_history (db : DB) (uid : Nat) (f : User → User) :
    (db.modifyUser uid f).history = db.history := rfl

theorem modifyUser_referrals (db : DB) (uid : Nat) (f : User → User) :
    (db.modifyUser uid f).referrals = db.referrals := rfl

theorem updateUserLevel_orders (db : DB) (uid : Nat) :
    (updateUserLevel db uid).orders = db.orders := by
  unfold updateUserLevel; dsimp only; split <;> rfl

theorem updateUserLevel_invoices (db : DB) (uid : Nat) :
    (updateUserLevel db uid).invoices = db.invoices := by
  unfold updateUserLevel; dsimp only; split <;> rfl

theorem updateUserLevel_history (db : DB) (uid : Nat) :
    (updateUserLevel db uid).history = db.history := by
  unfold updateUserLevel; dsimp only; split <;> rfl

theorem updateUserLevel_referrals (db : DB) (uid : Nat) :
    (updateUserLevel db uid).referrals = db.referrals := by
  unfold updateUserLevel; dsimp only; split <;> rfl

theorem updateUserLevel_cashback (db : DB) (uid i : Nat) :
    ((updateUserLevel db uid).users i).cashback = (db.users i).cashback := by
  unfold updateUserLevel DB.modifyUser
  dsimp only
  split
  · dsimp only; split <;> rfl
  · rfl

theorem updateUserLevel_totalSpent (db : DB) (uid i : Nat) :
    ((updateUserLevel db uid).users i).totalSpent = (db.users i).totalSpent := by
  unfold updateUserLevel DB.modifyUser
  dsimp only
  split
  · dsimp only; split <;> rfl
  · rfl

theorem updateUserLevel_referralEarnings (db : DB) (uid i : Nat) :
    ((updateUserLevel db uid).users i).referralEarnings = (db.users i).referralEarnings := by
  unfold updateUserLevel DB.modifyUser
  dsimp only
  split
  · dsimp only; split <;> rfl
  · rfl

theorem updateUserLevel_referredBy (db : DB) (uid i : Nat) :
    ((updateUserLevel db uid).users i).referredBy = (db.users i).referredBy := by
  unfold updateUserLevel DB.modifyUser
  dsimp only
  split
  · dsimp only; split <;> rfl
  · rfl

theorem referralCredit_orders (db : DB) (uid refId : Nat) (a : ℚ) :
    (referralCredit db uid refId a).orders = db.orders := rfl

theorem referralCredit_invoices (db : DB) (uid refId : Nat) (a : ℚ) :
    (referralCredit db uid refId a).invoices = db.invoices := rfl

theorem referralCredit_history (db : DB) (uid refId : Nat) (a : ℚ) :
    (referralCredit db uid refId a).history = db.history := rfl

theorem referralCredit_users (db : DB) (uid refId : Nat) (a : ℚ) (i : Nat) :
    (referralCredit db uid refId a).users i =
      if i = refId then
        { db.users i with referralEarnings := (db.users i).referralEarnings + a }
      else db.users i := rfl

theorem referralCredit_cashback (db : DB) (uid refId : Nat) (a : ℚ) (i : Nat) :
    ((referralCredit db uid refId a).users i).cashback = (db.users i).cashback := by
  rw [referralCredit_users]; split <;> rfl

theorem referralCredit_totalSpent (db : DB) (uid refId : Nat) (a : ℚ) (i : Nat) :
    ((referralCredit db uid refId a).users i).totalSpent = (db.users i).totalSpent := by
  rw [referralCredit_users]; split <;> rfl

theorem referralCredit_level (db : DB) (uid refId : Nat) (a : ℚ) (i : Nat) :
    ((referralCredit db uid refId a).users i).level = (db.users i).level := by
  rw [referralCredit_users]; split <;> rfl

theorem processReferralPayment_orders (db : DB) (uid : Nat) :
    (processReferralPayment db uid).orders = db.orders := by
  unfold processReferralPayment
  cases (db.users uid).referredBy with
  | none => rfl
  | some refId =>
    dsimp only
    split
    · rfl
    · cases (userOrders db uid).head? <;> rfl

theorem processReferralPayment_invoices (db : DB) (uid : Nat) :
    (processReferralPayment db uid).invoices = db.invoices := by
  unfold processReferralPayment
  cases (db.users uid).referredBy with
  | none => rfl
  | some refId =>
    dsimp only
    split
    · rfl
    · cases (userOrders db uid).head? <;> rfl

theorem processReferralPayment_history (db : DB) (uid : Nat) :
    (processReferralPayment db uid).history = db.history := by
  unfold processReferralPayment
  cases (db.users uid).referredBy with
  | none => rfl
  | some refId =>
    dsimp only
    split
    · rfl
    · cases (userOrders db uid).head? <;> rfl

theorem processReferralPayment_cashback (db : DB) (uid i : Nat) :
    ((processReferralPayment db uid).users i).cashback = (db.users i).cashback := by
  unfold processReferralPayment
  cases (db.users uid).referredBy with
  | none => rfl
  | some refId =>
    dsimp only
    split
    · rfl
    · cases (userOrders db uid).head?
      · rfl
      · exact referralCredit_cashback ..

theorem processReferralPayment_totalSpent (db : DB) (uid i : Nat) :
    ((processReferralPayment db uid).users i).totalSpent = (db.users i).totalSpent := by
  unfold processReferralPayment
  cases (db.users uid).referredBy with
  | none => rfl
  | some refId =>
    dsimp only
    split
    · rfl
    · cases (userOrders db uid).head?
      · rfl
      · exact referralCredit_totalSpent ..

theorem processReferralPayment_level (db : DB) (uid i : Nat) :
    ((processReferralPayment db uid).users i).level = (db.users i).level := by
  unfold processReferralPayment
  cases (db.users uid).referredBy with
  | none => rfl
  | some refId =>
    dsimp only
    split
    · rfl
    · cases (userOrders db uid).head?
      · rfl
      · exact referralCredit_level ..

theorem confirmMarkPaid_users (db : DB) (invId : Nat) (inv : Invoice) :
    (confirmMarkPaid db invId inv).users = db.users := rfl

theorem confirmMarkPaid_orders (db : DB) (invId : Nat) (inv : Invoice) :
    (confirmMarkPaid db invId inv).orders = db.orders := rfl

theorem confirmMarkPaid_history (db : DB) (invId : Nat) (inv : Invoice) :
    (confirmMarkPaid db invId inv).history = db.history := rfl

theorem confirmMarkPaid_referrals (db : DB) (invId : Nat) (inv : Invoice) :
    (confirmMarkPaid db invId inv).referrals = db.referrals := rfl

theorem confirmOrderWorking_users (db : DB) (inv : Invoice) :
    (confirmOrderWorking db inv).users = db.users := rfl

theorem confirmOrderWorking_invoices (db : DB) (inv : Invoice) :
    (confirmOrderWorking db inv).invoices = db.invoices := rfl

theorem confirmOrderWorking_history (db : DB) (inv : Invoice) :
    (confirmOrderWorking db inv).history = db.history := rfl

theorem confirmOrderWorking_referrals (db : DB) (inv : Invoice) :
    (confirmOrderWorking db inv).referrals = db.referrals := rfl

theorem confirmRewards_orders (db : DB) (inv : Invoice) :
    (confirmRewards db inv).orders = db.orders := rfl

theorem confirmRewards_invoices (db : DB) (inv : Invoice) :
    (confirmRewards db inv).invoices = db.invoices := rfl

theorem confirmRewards_referrals (db : DB) (inv : Invoice) :
    (confirmRewards db inv).referrals = db.referrals := rfl

theorem confirmRewards_history (db : DB) (inv : Invoice) :
    (confirmRewards db inv).history =
      db.history ++ [⟨inv.userId, inv.amount * (5 / 100), HDesc.orderCashback inv.orderId⟩] := rfl

theorem confirmRewards_users (db : DB) (inv : Invoice) (i : Nat) :
    (confirmRewards db inv).users i =
      if i = inv.userId then
        { db.users i with
          cashback := (db.users i).cashback + inv.amount * (5 / 100)
          totalSpent := (db.users i).totalSpent + inv.amount }
      else db.users i := rfl

theorem confirmRewards_referralEarnings (db : DB) (inv : Invoice) (i : Nat) :
    ((confirmRewards db inv).users i).referralEarnings = (db.users i).referralEarnings := by
  rw [confirmRewards_users]; split <;> rfl

theorem confirmRewards_referredBy (db : DB) (inv : Invoice) (i : Nat) :
    ((confirmRewards db inv).users i).referredBy = (db.users i).referredBy := by
  rw [confirmRewards_users]; split <;> rfl

/-- Filtering by owner commutes with a row map that preserves the owner
column. -/
theorem filter_userId_map (l : List Order) (g : Order → Order)
    (hg : ∀ o, (g o).userId = o.userId) (uid : Nat) :
    (l.map g).filter (fun o => o.userId == uid) =
      (l.filter (fun o => o.userId == uid)).map g := by
  induction l with
  | nil => rfl
  | cons o t ih =>
    simp only [List.map_cons, List.filter_cons, hg]
    split <;> simp [ih]

theorem userOrders_confirmOrderWorking (db : DB) (inv : Invoice) (uid : Nat) :
    userOrders (confirmOrderWorking db inv) uid =
      (userOrders db uid).map (fun o =>
        if o.id = inv.orderId then { o with status := "working", txHash := inv.txHash } else o) := by
  unfold userOrders confirmOrderWorking
  exact filter_userId_map _ _ (fun o => by split <;> rfl) uid

theorem userOrders_confirmRewards (db : DB) (inv : Invoice) (uid : Nat) :
    userOrders (confirmRewards db inv) uid = userOrders db uid := rfl

theorem userOrders_updateUserLevel (db : DB) (uid i : Nat) :
    userOrders (updateUserLevel db uid) i = userOrders db i := by
  unfold userOrders
  rw [updateUserLevel_orders]

/-! ## Invariant preservation -/

theorem jsOr_nonneg {a b : ℚ} (ha : 0 ≤ a) (hb : 0 ≤ b) : 0 ≤ jsOr a b := by
  unfold jsOr; split <;> assumption

theorem fieldsNonNeg_of_statusMap {g : Order → Order}
    (hg : ∀ o, (g o).subtotal = o.subtotal ∧ (g o).basePrice = o.basePrice ∧ (g o).total = o.total)
    {l : List Order} (h : ∀ o ∈ l, o.fieldsNonNeg) : ∀ o ∈ l.map g, o.fieldsNonNeg := by
  intro o hm
  rcases List.mem_map.mp hm with ⟨a, ha, rfl⟩
  obtain ⟨e1, e2, e3⟩ := hg a
  unfold Order.fieldsNonNeg
  rw [e1, e2, e3]
  exact h a ha

theorem mem_of_userOrders_head? {db : DB} {uid : Nat} {o : Order}
    (h : (userOrders db uid).head? = some o) : o ∈ db.orders := by
  have hmem : o ∈ userOrders db uid := by
    cases hl : userOrders db uid with
    | nil => rw [hl] at h; cases h
    | cons x t =>
      rw [hl] at h
      simp only [List.head?_cons, Option.some.injEq] at h
      rw [← h]
      exact List.mem_cons_self x t
  exact List.mem_of_mem_filter hmem

theorem initDB_invariant : InvariantDB initDB := by
  refine ⟨fun uid => ⟨le_refl 0, le_refl 0⟩, ?_, ?_⟩
  · intro o ho; cases ho
  · intro i inv h; cases h

theorem createOrder_invariant {db : DB} {uid : Nat} {req : OrderReq}
    (h : InvariantDB db) (h0 : 0 ≤ req.basePrice) (h1 : 0 ≤ req.total)
    (_h2 : 0 ≤ req.cashbackUsed) (h3 : req.cashbackUsed ≤ (db.users uid).cashback) :
    InvariantDB (createOrder db uid req) := by
  obtain ⟨hu, ho, hi⟩ := h
  have horders : ∀ o ∈ (createOrder db uid req).orders, o.fieldsNonNeg := by
    have : (createOrder db uid req).orders = db.orders ++
        [{ id := req.id, userId := uid, basePrice := req.basePrice, discount := req.discount,
           cashbackUsed := req.cashbackUsed, total := req.total,
           cashbackEarned := req.cashbackEarned, status := "pending", txHash := Option.none,
           promoCode := req.promoCode, discountAmount := req.promoDiscount + req.referralDiscount,
           subtotal := req.basePrice }] := by
      unfold createOrder; dsimp only; split <;> rfl
    rw [this]
    intro o hm
    rcases List.mem_append.mp hm with hl | hr
    · exact ho o hl
    · rw [List.mem_singleton.mp hr]
      exact ⟨h0, h0, h1⟩
  have husers : ∀ j, ((createOrder db uid req).users j).balancesNonNeg := by
    have : (createOrder db uid req).users = fun j =>
        if req.cashbackUsed > 0 then
          (if j = uid then { db.users j with cashback := (db.users j).cashback - req.cashbackUsed }
           else db.users j)
        else db.users j := by
      unfold createOrder DB.modifyUser; dsimp only
      split <;> rfl
    rw [this]
    intro j
    dsimp only
    split
    · split
      · next hj =>
        subst hj
        exact ⟨sub_nonneg.mpr h3, (hu j).2⟩
      · exact hu j
    · exact hu j
  have hinvs : (createOrder db uid req).invoices = db.invoices := by
    unfold createOrder; dsimp only; split <;> rfl
  refine ⟨husers, horders, ?_⟩
  rw [hinvs]
  exact hi

theorem createInvoice_invariant {db : DB} {invId orderId uid : Nat} {amount discountAmount : ℚ}
    (h : InvariantDB db) (ha : 0 ≤ amount) :
    InvariantDB (createInvoice db invId orderId uid amount discountAmount) := by
  obtain ⟨hu, ho, hi⟩ := h
  refine ⟨hu, ?_, ?_⟩
  · exact fieldsNonNeg_of_statusMap (fun o => by split <;> exact ⟨rfl, rfl, rfl⟩) ho
  · intro i inv h'
    unfold createInvoice at h'
    dsimp only at h'
    by_cases hii : i = invId
    · rw [if_pos hii] at h'
      cases h'
      exact ha
    · rw [if_neg hii] at h'
      exact hi i inv h'

theorem confirmMarkPaid_invariant {db : DB} {invId : Nat} {inv : Invoice}
    (h : InvariantDB db) (hinv : db.invoices invId = some inv) :
    InvariantDB (confirmMarkPaid db invId inv) := by
  obtain ⟨hu, ho, hi⟩ := h
  refine ⟨hu, ho, ?_⟩
  intro i inv' h'
  unfold confirmMarkPaid at h'
  dsimp only at h'
  by_cases hii : i = invId
  · rw [if_pos hii] at h'
    cases h'
    exact hi invId inv hinv
  · rw [if_neg hii] at h'
    exact hi i inv' h'

theorem confirmOrderWorking_invariant {db : DB} {inv : Invoice}
    (h : InvariantDB db) : InvariantDB (confirmOrderWorking db inv) := by
  obtain ⟨hu, ho, hi⟩ := h
  exact ⟨hu, fieldsNonNeg_of_statusMap (fun o => by split <;> exact ⟨rfl, rfl, rfl⟩) ho, hi⟩

theorem confirmRewards_invariant {db : DB} {inv : Invoice}
    (h : InvariantDB db) (ha : 0 ≤ inv.amount) : InvariantDB (confirmRewards db inv) := by
  obtain ⟨hu, ho, hi⟩ := h
  refine ⟨fun j => ?_, ho, hi⟩
  rw [User.balancesNonNeg, confirmRewards_users]
  split
  · exact ⟨add_nonneg (hu j).1 (mul_nonneg ha (by norm_num)), (hu j).2⟩
  · exact hu j

theorem updateUserLevel_invariant {db : DB} {uid : Nat}
    (h : InvariantDB db) : InvariantDB (updateUserLevel db uid) := by
  obtain ⟨hu, ho, hi⟩ := h
  refine ⟨fun j => ?_, ?_, ?_⟩
  · rw [User.balancesNonNeg, updateUserLevel_cashback, updateUserLevel_referralEarnings]
    exact hu j
  · rw [updateUserLevel_orders]; exact ho
  · rw [updateUserLevel_invoices]; exact hi

theorem processReferralPayment_invariant {db : DB} {uid : Nat}
    (h : InvariantDB db) : InvariantDB (processReferralPayment db uid) := by
  obtain ⟨hu, ho, hi⟩ := h
  unfold processReferralPayment
  cases (db.users uid).referredBy with
  | none => exact ⟨hu, ho, hi⟩
  | some refId =>
    dsimp only
    split
    · exact ⟨hu, ho, hi⟩
    · cases hh : (userOrders db uid).head? with
      | none => exact ⟨hu, ho, hi⟩
      | some firstOrder =>
        have hnn := ho firstOrder (mem_of_userOrders_head? hh)
        have hba : 0 ≤ jsOr firstOrder.subtotal (jsOr firstOrder.basePrice firstOrder.total) * (25 / 100) :=
          mul_nonneg (jsOr_nonneg hnn.1 (jsOr_nonneg hnn.2.1 hnn.2.2)) (by norm_num)
        refine ⟨fun j => ?_, ?_, ?_⟩
        · refine ⟨?_, ?_⟩
          · rw [referralCredit_cashback]; exact (hu j).1
          · rw [referralCredit_users]
            split
            · exact add_nonneg (hu j).2 hba
            · exact (hu j).2
        · rw [referralCredit_orders]; exact ho
        · rw [referralCredit_invoices]; exact hi

theorem confirmInvoice_invariant {db : DB} {invId : Nat}
    (h : InvariantDB db) : InvariantDB (confirmInvoice db invId) := by
  unfold confirmInvoice
  cases hinv : db.invoices invId with
  | none => exact h
  | some inv =>
    exact processReferralPayment_invariant (updateUserLevel_invariant
      (confirmRewards_invariant
        (confirmOrderWorking_invariant (confirmMarkPaid_invariant h hinv))
        (h.2.2 invId inv hinv)))

theorem requestWithdrawal_invariant {db : DB} {uid wId : Nat} {wtype : String} {amount : ℚ}
    (h : InvariantDB db) : InvariantDB (requestWithdrawal db uid wId wtype amount) := by
  obtain ⟨hu, ho, hi⟩ := h
  unfold requestWithdrawal
  dsimp only
  cases (db.users uid).trc20Wallet with
  | none => exact ⟨hu, ho, hi⟩
  | some w =>
    split_ifs <;> exact ⟨hu, ho, hi⟩

theorem processWithdrawal_invariant {db : DB} {wId : Nat} {txHash : Option String}
    (h : InvariantDB db) : InvariantDB (processWithdrawal db wId txHash) := by
  obtain ⟨hu, ho, hi⟩ := h
  unfold processWithdrawal
  cases db.withdrawals wId with
  | none => exact ⟨hu, ho, hi⟩
  | some w =>
    dsimp only
    split
    · exact ⟨hu, ho, hi⟩
    · split_ifs with h1 hh2
      · refine ⟨fun j => ?_, ho, hi⟩
        rw [User.balancesNonNeg, DB.modifyUser]
        dsimp only
        split
        · exact ⟨le_max_left 0 _, (hu j).2⟩
        · exact hu j
      · refine ⟨fun j => ?_, ho, hi⟩
        rw [User.balancesNonNeg, DB.modifyUser]
        dsimp only
        split
        · exact ⟨(hu j).1, le_max_left 0 _⟩
        · exact hu j
      · exact ⟨hu, ho, hi⟩

theorem cancelWithdrawal_invariant {db : DB} {wId : Nat}
    (h : InvariantDB db) : InvariantDB (cancelWithdrawal db wId) := by
  obtain ⟨hu, ho, hi⟩ := h
  unfold cancelWithdrawal
  cases db.withdrawals wId with
  | none => exact ⟨hu, ho, hi⟩
  | some w =>
    dsimp only
    split <;> exact ⟨hu, ho, hi⟩

theorem step_invariant {db : DB} {op : Op}
    (h : InvariantDB db) (hop : GoodOp db op) : InvariantDB (step db op) := by
  cases op with
  | createOrder uid req => exact createOrder_invariant h hop.1 hop.2.1 hop.2.2.1 hop.2.2.2
  | createInvoice invId orderId uid amount discountAmount => exact createInvoice_invariant h hop
  | confirmInvoice invId => exact confirmInvoice_invariant h
  | requestWithdrawal uid wId wtype amount => exact requestWithdrawal_invariant h
  | processWithdrawal wId txHash => exact processWithdrawal_invariant h
  | cancelWithdrawal wId => exact cancelWithdrawal_invariant h

theorem runOps_invariant {db : DB} {ops : List Op}
    (h : InvariantDB db) (hops : GoodOps db ops) : InvariantDB (runOps db ops) := by
  induction ops generalizing db with
  | nil => exact h
  | cons op rest ih => exact ih (step_invariant h hops.1) hops.2

theorem goodOps_append_left {db : DB} {l1 l2 : List Op}
    (h : GoodOps db (l1 ++ l2)) : GoodOps db l1 := by
  induction l1 generalizing db with
  | nil => exact trivial
  | cons op rest ih => exact ⟨h.1, ih h.2⟩

/-! ## Characterizations of the confirm endpoint -/

theorem updateUserLevel_level_self (db : DB) (uid : Nat) :
    ((updateUserLevel db uid).users uid).level =
      if levelFor (db.users uid).totalSpent ≠ (db.users uid).level ∧
         levelFor (db.users uid).totalSpent ≠ Level.none
      then levelFor (db.users uid).totalSpent else (db.users uid).level := by
  unfold updateUserLevel DB.modifyUser
  dsimp only
  split
  · dsimp only; rw [if_pos rfl]
  · rfl

theorem levelFor_eq_none_iff {s : ℚ} : levelFor s = Level.none ↔ s < 100 := by
  unfold levelFor
  split_ifs with h1 h2 h3 h4
  · exact iff_of_false (by decide) (by linarith)
  · exact iff_of_false (by decide) (by linarith)
  · exact iff_of_false (by decide) (by linarith)
  · exact iff_of_false (by decide) (by linarith)
  · exact iff_of_true rfl (by linarith [not_le.mp h4])

theorem confirmInvoice_eq {db : DB} {invId : Nat} {inv : Invoice}
    (hinv : db.invoices invId = some inv) :
    confirmInvoice db invId
      = processReferralPayment (updateUserLevel (confirmRewards
          (confirmOrderWorking (confirmMarkPaid db invId inv) inv) inv) inv.userId)
          inv.userId := by
  unfold confirmInvoice
  rw [hinv]

theorem confirmInvoice_totalSpent {db : DB} {invId : Nat} {inv : Invoice}
    (hinv : db.invoices invId = some inv) :
    ((confirmInvoice db invId).users inv.userId).totalSpent
      = (db.users inv.userId).totalSpent + inv.amount := by
  rw [confirmInvoice_eq hinv]
  rw [processReferralPayment_totalSpent, updateUserLevel_totalSpent, confirmRewards_users,
    if_pos rfl]
  rfl

theorem confirmInvoice_cashback {db : DB} {invId : Nat} {inv : Invoice}
    (hinv : db.invoices invId = some inv) :
    ((confirmInvoice db invId).users inv.userId).cashback
      = (db.users inv.userId).cashback + inv.amount * (5 / 100) := by
  rw [confirmInvoice_eq hinv]
  rw [processReferralPayment_cashback, updateUserLevel_cashback, confirmRewards_users,
    if_pos rfl]
  rfl

theorem confirmInvoice_history {db : DB} {invId : Nat} {inv : Invoice}
    (hinv : db.invoices invId = some inv) :
    (confirmInvoice db invId).history
      = db.history ++ [⟨inv.userId, inv.amount * (5 / 100), HDesc.orderCashback inv.orderId⟩] := by
  rw [confirmInvoice_eq hinv]
  rw [processReferralPayment_history, updateUserLevel_history, confirmRewards_history]
  rfl

theorem confirmInvoice_paid {db : DB} {invId : Nat} {inv : Invoice}
    (hinv : db.invoices invId = some inv) :
    (confirmInvoice db invId).invoices invId = some { inv with status := "paid" } := by
  rw [confirmInvoice_eq hinv]
  rw [processReferralPayment_invoices, updateUserLevel_invoices, confirmRewards_invoices,
    confirmOrderWorking_invoices]
  unfold confirmMarkPaid
  dsimp only
  rw [if_pos rfl]

theorem confirmInvoice_level {db : DB} {invId : Nat} {inv : Invoice}
    (hinv : db.invoices invId = some inv) (ha : 0 ≤ inv.amount)
    (hlvl : (db.users inv.userId).level = levelFor (db.users inv.userId).totalSpent) :
    ((confirmInvoice db invId).users inv.userId).level
      = levelFor ((db.users inv.userId).totalSpent + inv.amount) := by
  rw [confirmInvoice_eq hinv]
  rw [processReferralPayment_level, updateUserLevel_level_self, confirmRewards_users,
    if_pos rfl]
  dsimp only
  rw [confirmOrderWorking_users, confirmMarkPaid_users, hlvl]
  by_cases hL : levelFor ((db.users inv.userId).totalSpent + inv.amount)
      = levelFor (db.users inv.userId).totalSpent
  · rw [hL, if_neg]
    intro hc
    exact hc.1 rfl
  · by_cases hN : levelFor ((db.users inv.userId).totalSpent + inv.amount) = Level.none
    · rw [if_neg (fun hc => hc.2 hN)]
      have h1 : (db.users inv.userId).totalSpent + inv.amount < 100 := levelFor_eq_none_iff.mp hN
      have h2 : (db.users inv.userId).totalSpent < 100 := by linarith
      rw [hN, levelFor_eq_none_iff.mpr h2]
    · rw [if_pos ⟨hL, hN⟩]

theorem confirmInvoice_referral_pays {db : DB} {invId : Nat} {inv : Invoice} {rid : Nat}
    {o : Order} (hinv : db.invoices invId = some inv)
    (href : (db.users inv.userId).referredBy = some rid)
    (horders : userOrders db inv.userId = [o]) (hs : o.subtotal ≠ 0) :
    ((confirmInvoice db invId).users rid).referralEarnings
      = (db.users rid).referralEarnings + o.subtotal * (25 / 100) ∧
    (confirmInvoice db invId).referrals
      = db.referrals.map (fun r =>
          if r.referrerId = rid ∧ r.referredId = inv.userId then
            { r with earnings := o.subtotal * (25 / 100) }
          else r) := by
  rw [confirmInvoice_eq hinv]
  have hrefR : (((updateUserLevel (confirmRewards
      (confirmOrderWorking (confirmMarkPaid db invId inv) inv) inv)
      inv.userId).users) inv.userId).referredBy = some rid := by
    rw [updateUserLevel_referredBy, confirmRewards_referredBy]
    exact href
  have hordersR : userOrders (updateUserLevel (confirmRewards
      (confirmOrderWorking (confirmMarkPaid db invId inv) inv) inv)
      inv.userId) inv.userId =
      [if o.id = inv.orderId then { o with status := "working", txHash := inv.txHash } else o] := by
    rw [userOrders_updateUserLevel, userOrders_confirmRewards, userOrders_confirmOrderWorking]
    rw [show userOrders (confirmMarkPaid db invId inv) inv.userId
        = userOrders db inv.userId from rfl, horders]
    rfl
  unfold processReferralPayment
  rw [hrefR, hordersR]
  dsimp only [List.length_cons, List.length_nil, List.head?_cons]
  rw [if_neg (by norm_num)]
  have hjs : jsOr (if o.id = inv.orderId then
        { o with status := "working", txHash := inv.txHash } else o).subtotal
      (jsOr (if o.id = inv.orderId then
        { o with status := "working", txHash := inv.txHash } else o).basePrice
        (if o.id = inv.orderId then
        { o with status := "working", txHash := inv.txHash } else o).total)
      = o.subtotal := by
    rw [show (if o.id = inv.orderId then
      { o with status := "working", txHash := inv.txHash } else o).subtotal = o.subtotal
      from by split <;> rfl]
    unfold jsOr
    rw [if_neg hs]
  rw [hjs]
  constructor
  · rw [referralCredit_users, if_pos rfl]
    dsimp only
    rw [updateUserLevel_referralEarnings, confirmRewards_referralEarnings]
    rfl
  · rw [show (referralCredit (updateUserLevel (confirmRewards
        (confirmOrderWorking (confirmMarkPaid db invId inv) inv) inv)
        inv.userId) inv.userId rid (o.subtotal * (25 / 100))).referrals
      = (updateUserLevel (confirmRewards
        (confirmOrderWorking (confirmMarkPaid db invId inv) inv) inv)
        inv.userId).referrals.map (fun r =>
          if r.referrerId = rid ∧ r.referredId = inv.userId then
            { r with earnings := o.subtotal * (25 / 100) }
          else r) from rfl]
    rw [updateUserLevel_referrals]
    rfl

theorem confirmInvoice_referral_skip {db : DB} {invId : Nat} {inv : Invoice}
    (hinv : db.invoices invId = some inv)
    (h : (userOrders db inv.userId).length ≠ 1 ∨
      (db.users inv.userId).referredBy = Option.none) :
    (∀ r, ((confirmInvoice db invId).users r).referralEarnings
      = (db.users r).referralEarnings) ∧
    (confirmInvoice db invId).referrals = db.referrals := by
  rw [confirmInvoice_eq hinv]
  have husers : ∀ r, ((updateUserLevel (confirmRewards
      (confirmOrderWorking (confirmMarkPaid db invId inv) inv) inv)
      inv.userId).users r).referralEarnings = (db.users r).referralEarnings := by
    intro r
    rw [updateUserLevel_referralEarnings, confirmRewards_referralEarnings]
    rfl
  have hreferrals : (updateUserLevel (confirmRewards
      (confirmOrderWorking (confirmMarkPaid db invId inv) inv) inv)
      inv.userId).referrals = db.referrals := by
    rw [updateUserLevel_referrals]
    rfl
  have hlen : (userOrders (updateUserLevel (confirmRewards
      (confirmOrderWorking (confirmMarkPaid db invId inv) inv) inv)
      inv.userId) inv.userId).length = (userOrders db inv.userId).length := by
    rw [userOrders_updateUserLevel, userOrders_confirmRewards, userOrders_confirmOrderWorking]
    rw [show userOrders (confirmMarkPaid db invId inv) inv.userId
        = userOrders db inv.userId from rfl]
    simp
  unfold processReferralPayment
  cases href : (((updateUserLevel (confirmRewards
      (confirmOrderWorking (confirmMarkPaid db invId inv) inv) inv)
      inv.userId).users) inv.userId).referredBy with
  | none => exact ⟨husers, hreferrals⟩
  | some rid =>
    have hrefdb : (db.users inv.userId).referredBy = some rid := by
      rw [updateUserLevel_referredBy, confirmRewards_referredBy] at href
      exact href
    have hlen1 : (userOrders db inv.userId).length ≠ 1 := by
      rcases h with h1 | h2
      · exact h1
      · rw [hrefdb] at h2; cases h2
    dsimp only
    rw [if_pos (by rw [hlen]; exact hlen1)]
    exact ⟨husers, hreferrals⟩

/-! ## Claim theorems -/

/-- C1: the confirm endpoint performs no already-paid check, so
re-confirming invoice 1 (amount 150, already `paid` after the first call)
is NOT a no-op: it doubles `total_spent` (150 → 300), credits the 5%
cashback again (7.5 → 15), appends a second ledger entry, and pays the
referrer's 25% commission again (37.5 → 75), contradicting the claimed
precondition/idempotence. -/
theorem c1_reconfirm_double_credits :
    c1dbPaid.invoices 1 = some c1paidInv ∧
    c1paidInv.status = "paid" ∧
    ((confirmInvoice c1dbPaid 1).users 1).totalSpent = 300 ∧
    ((confirmInvoice c1dbPaid 1).users 1).cashback = 15 ∧
    ((confirmInvoice c1dbPaid 1).users 2).referralEarnings = 75 ∧
    (confirmInvoice c1dbPaid 1).history.length = 2 := by
  have hinv : c1dbPaid.invoices 1 = some c1paidInv := rfl
  refine ⟨rfl, rfl, ?_, ?_, ?_, ?_⟩
  · show ((confirmInvoice c1dbPaid 1).users c1paidInv.userId).totalSpent = 300
    rw [confirmInvoice_totalSpent hinv]
    norm_num [c1dbPaid, c1paidInv, c1inv]
  · show ((confirmInvoice c1dbPaid 1).users c1paidInv.userId).cashback = 15
    rw [confirmInvoice_cashback hinv]
    norm_num [c1dbPaid, c1paidInv, c1inv]
  · have h := (confirmInvoice_referral_pays hinv
      (show (c1dbPaid.users c1paidInv.userId).referredBy = some 2 from rfl)
      (show userOrders c1dbPaid c1paidInv.userId = [c1orderW] from rfl)
      (by norm_num [c1orderW, c1order])).1
    rw [h]
    norm_num [c1dbPaid, c1orderW, c1order]
  · rw [confirmInvoice_history hinv]
    simp [c1dbPaid]

/-- C2 counterexample: order creation deducts `cashbackUsed` with no
balance check, so a single order redeeming 5 of cashback against a zero
balance drives the user's cashback balance to −5 < 0, refuting the
unconditional non-negativity claim. -/
theorem c2_nonneg_counterexample :
    ((runOps initDB [Op.createOrder 1 c2req]).users 1).cashback < 0 := by
  norm_num [runOps, step, createOrder, DB.modifyUser, c2req, initDB]

/-- C3: `POST /api/promo/apply` never consults `max_uses`. For SAVE10
with `maxUses = 1`: the first redemption succeeds and sets
`currentUses = 1` (as the claim says), and the validity check then
reports it exhausted — but a second apply call succeeds anyway, pushing
`currentUses` to 2 > `maxUses` and appending a second `promo_uses` row,
contradicting the claimed rejection. -/
theorem upperStr_SAVE10 : upperStr "SAVE10" = "SAVE10" := rfl

theorem c3_apply_ignores_max_uses :
    (applyPromo pdb0 "SAVE10" 1 1).2 = PromoApply.success 10 ∧
    pdb1.promos.map PromoCode.currentUses = [1] ∧
    checkPromo pdb1 0 "SAVE10" = PromoCheck.exhausted ∧
    (applyPromo pdb1 "SAVE10" 2 2).2 = PromoApply.success 10 ∧
    (applyPromo pdb1 "SAVE10" 2 2).1.promos.map PromoCode.currentUses = [2] ∧
    (applyPromo pdb1 "SAVE10" 2 2).1.uses.length = 2 := by
  norm_num [applyPromo, checkPromo, findPromo, upperStr_SAVE10, PromoCode.isExpired,
    PromoCode.isExhausted, pdb1, pdb0, save10, List.find?]

/-- C9: the admin cashback endpoint increments the balance without
writing any `cashback_history` row, so after crediting 10 to a fresh user
the balance (10) no longer equals the ledger running total (0) — the
claimed balance/ledger reconciliation invariant fails. -/
theorem c9_admin_cashback_skips_ledger :
    ((adminAddCashback initDB 1 10).users 1).cashback = 10 ∧
    ledgerTotal (adminAddCashback initDB 1 10) 1 = 0 ∧
    ((adminAddCashback initDB 1 10).users 1).cashback ≠
      ledgerTotal (adminAddCashback initDB 1 10) 1 := by
  norm_num [adminAddCashback, DB.modifyUser, ledgerTotal, initDB]

/-- C2 (amended): along any operation sequence that is request-valid —
each order creation redeems at most the user's current cashback balance
and supplies non-negative monetary fields, and each invoice amount is
non-negative — every user's cashback and referralEarnings balances are
non-negative at every observed point (after every prefix); in particular
withdrawal completion clamps at zero and never drives a balance
negative. -/
theorem c2_balances_nonneg_of_validated (db : DB) (ops pre suf : List Op)
    (hdb : InvariantDB db) (hops : GoodOps db ops) (hsplit : ops = pre ++ suf) :
    NonNegDB (runOps db pre) :=
  (runOps_invariant hdb (goodOps_append_left (hsplit ▸ hops))).1

theorem c2_balances_nonneg_witness : NonNegDB (runOps initDB c2ops) := by
  refine c2_balances_nonneg_of_validated initDB c2ops c2ops [] initDB_invariant
    ⟨?_, ?_, trivial, trivial⟩ (List.append_nil c2ops).symm
  · refine ⟨?_, ?_, ?_, ?_⟩ <;> norm_num [c2reqOk, initDB]
  · show (0 : ℚ) ≤ 100
    norm_num

/-- C4: when a referred user's payment is confirmed and that user has
exactly one order on record (with non-zero subtotal s), the referrer's
referralEarnings balance increases by exactly 25% of the order's
pre-discount subtotal — not of the discounted total — and the pair's
Referral row has its earnings field overwritten with that same 25% of s.
The discount does not appear in the commission at all. -/
theorem c4_commission_quarter_of_subtotal (db : DB) (invId : Nat) (inv : Invoice)
    (rid : Nat) (o : Order) (hinv : db.invoices invId = some inv)
    (href : (db.users inv.userId).referredBy = some rid)
    (horders : userOrders db inv.userId = [o]) (hs : 0 < o.subtotal) :
    ((confirmInvoice db invId).users rid).referralEarnings
      = (db.users rid).referralEarnings + o.subtotal * (25 / 100) ∧
    (confirmInvoice db invId).referrals
      = db.referrals.map (fun r =>
          if r.referrerId = rid ∧ r.referredId = inv.userId then
            { r with earnings := o.subtotal * (25 / 100) }
          else r) :=
  confirmInvoice_referral_pays hinv href horders (ne_of_gt hs)

theorem c4_commission_witness :
    ((confirmInvoice c4db 1).users 2).referralEarnings = 50 ∧
    (confirmInvoice c4db 1).referrals = [⟨2, 1, 50⟩] := by
  have h := c4_commission_quarter_of_subtotal c4db 1 c4inv 2 c4order rfl rfl rfl
    (by norm_num [c4order])
  constructor
  · rw [h.1]
    norm_num [c4db, c4order]
  · rw [h.2]
    norm_num [c4db, c4order, c4inv]

/-- C5: referral commission fires only when the paying user has exactly
one order on record at confirmation time and has a referrer: whenever the
order count differs from one (e.g. a second, later-created order is being
confirmed) or there is no referrer, confirming leaves every user's
referralEarnings and the whole referrals table unchanged. -/
theorem c5_commission_at_most_once (db : DB) (invId : Nat) (inv : Invoice)
    (hinv : db.invoices invId = some inv)
    (h : (userOrders db inv.userId).length ≠ 1 ∨
      (db.users inv.userId).referredBy = Option.none) :
    (∀ r, ((confirmInvoice db invId).users r).referralEarnings
      = (db.users r).referralEarnings) ∧
    (confirmInvoice db invId).referrals = db.referrals :=
  confirmInvoice_referral_skip hinv h

theorem c5_commission_witness :
    ((confirmInvoice c5db 2).users 2).referralEarnings
      = (c5db.users 2).referralEarnings ∧
    (confirmInvoice c5db 2).referrals = c5db.referrals := by
  have h := c5_commission_at_most_once c5db 2 c5inv rfl (Or.inl (by decide))
  exact ⟨h.1 2, h.2⟩

/-- C6: confirming an invoice of amount a credits the payer exactly:
totalSpent increases by a, the cashback balance by 0.05a with a matching
positive ledger entry appended, and the stored level becomes the pure
threshold function of the new totalSpent (assuming it was consistent
before), whose thresholds are: ≥10000 platinum, ≥1000 gold, ≥500 silver,
≥100 bronze, below none. -/
theorem c6_confirm_rewards_and_level (db : DB) (invId : Nat) (inv : Invoice)
    (hinv : db.invoices invId = some inv) (ha : 0 ≤ inv.amount)
    (hlvl : (db.users inv.userId).level = levelFor (db.users inv.userId).totalSpent) :
    (((confirmInvoice db invId).users inv.userId).totalSpent
      = (db.users inv.userId).totalSpent + inv.amount) ∧
    (((confirmInvoice db invId).users inv.userId).cashback
      = (db.users inv.userId).cashback + inv.amount * (5 / 100)) ∧
    ((confirmInvoice db invId).history
      = db.history ++ [⟨inv.userId, inv.amount * (5 / 100), HDesc.orderCashback inv.orderId⟩]) ∧
    (((confirmInvoice db invId).users inv.userId).level
      = levelFor ((db.users inv.userId).totalSpent + inv.amount)) ∧
    (∀ s : ℚ, 10000 ≤ s → levelFor s = Level.platinum) ∧
    (∀ s : ℚ, 1000 ≤ s → s < 10000 → levelFor s = Level.gold) ∧
    (∀ s : ℚ, 500 ≤ s → s < 1000 → levelFor s = Level.silver) ∧
    (∀ s : ℚ, 100 ≤ s → s < 500 → levelFor s = Level.bronze) ∧
    (∀ s : ℚ, s < 100 → levelFor s = Level.none) := by
  refine ⟨confirmInvoice_totalSpent hinv, confirmInvoice_cashback hinv,
    confirmInvoice_history hinv, confirmInvoice_level hinv ha hlvl, ?_, ?_, ?_, ?_, ?_⟩
  · intro s h1
    unfold levelFor
    rw [if_pos (by linarith)]
  · intro s h1 h2
    unfold levelFor
    rw [if_neg (by linarith), if_pos (by linarith)]
  · intro s h1 h2
    unfold levelFor
    rw [if_neg (by linarith), if_neg (by linarith), if_pos (by linarith)]
  · intro s h1 h2
    unfold levelFor
    rw [if_neg (by linarith), if_neg (by linarith), if_neg (by linarith),
      if_pos (by linarith)]
  · intro s h1
    unfold levelFor
    rw [if_neg (by linarith), if_neg (by linarith), if_neg (by linarith),
      if_neg (by linarith)]

theorem c6_confirm_witness :
    ((confirmInvoice c6db 1).users 1).totalSpent = 150 ∧
    ((confirmInvoice c6db 1).users 1).cashback = 15 / 2 ∧
    ((confirmInvoice c6db 1).users 1).level = Level.bronze := by
  have h := c6_confirm_rewards_and_level c6db 1 c6inv rfl (by norm_num [c6inv]) rfl
  refine ⟨?_, ?_, ?_⟩
  · show ((confirmInvoice c6db 1).users c6inv.userId).totalSpent = 150
    rw [h.1]
    norm_num [c6db, c6inv]
  · show ((confirmInvoice c6db 1).users c6inv.userId).cashback = 15 / 2
    rw [h.2.1]
    norm_num [c6db, c6inv]
  · show ((confirmInvoice c6db 1).users c6inv.userId).level = Level.bronze
    rw [h.2.2.2.1]
    norm_num [c6db, c6inv, levelFor]

/-- C8: creating an order that redeems a positive cashback amount c
debits exactly c from the user's cashback balance and appends a ledger
entry of −c carrying the order-payment description with the order's id,
while the user's totalSpent, their earned cashback (the balance changes
by exactly −c, nothing is credited), every referralEarnings balance and
the referrals table stay unchanged — rewards are deferred to payment
confirmation. -/
theorem c8_create_order_debits_only (db : DB) (uid : Nat) (req : OrderReq)
    (hc : 0 < req.cashbackUsed) :
    ((createOrder db uid req).users uid).cashback
      = (db.users uid).cashback - req.cashbackUsed ∧
    (createOrder db uid req).history
      = db.history ++ [⟨uid, -req.cashbackUsed, HDesc.orderPayment req.id⟩] ∧
    ((createOrder db uid req).users uid).totalSpent = (db.users uid).totalSpent ∧
    (∀ r, ((createOrder db uid req).users r).referralEarnings
      = (db.users r).referralEarnings) ∧
    (createOrder db uid req).referrals = db.referrals := by
  unfold createOrder DB.modifyUser
  dsimp only
  rw [if_pos hc]
  refine ⟨?_, rfl, ?_, ?_, rfl⟩
  · dsimp only
    rw [if_pos rfl]
  · dsimp only
    rw [if_pos rfl]
  · intro r
    dsimp only
    split <;> rfl

theorem c8_create_order_witness :
    ((createOrder c8db 1 c8req).users 1).cashback = 5 ∧
    (createOrder c8db 1 c8req).history = [⟨1, -5, HDesc.orderPayment 7⟩] ∧
    ((createOrder c8db 1 c8req).users 1).totalSpent = 0 := by
  have h := c8_create_order_debits_only c8db 1 c8req (by norm_num [c8req])
  refine ⟨?_, ?_, ?_⟩
  · rw [h.1]
    norm_num [c8db, c8req]
  · rw [h.2.1]
    norm_num [c8db, c8req]
  · rw [h.2.2.1]
    norm_num [c8db]

/-- C7: the verifier returns a distinct verified:false value for each
failure condition instead of raising — hash not found; transaction not
confirmed; the $98-against-expected-$100 transfer (2% off against the 1%
tolerance) reported as an amount mismatch; recipient unextractable;
recipient not matching case-insensitively — the five failure results are
pairwise distinct, and on success it returns verified:true carrying the
transfer amount, recipient and timestamp (with a case-insensitive
recipient match). -/
theorem c7_verify_failure_modes :
    (∀ e r, verifyTronscan Option.none e r = VerifyResult.notFound) ∧
    (∀ tx e r, tx.confirmed = false →
      verifyTronscan (some tx) e r = VerifyResult.notConfirmed) ∧
    verifyTronscan (some tx98) (some 100) "TDEST" = VerifyResult.amountMismatch 100 98 ∧
    verifyTronscan (some txNoRecip) (some 100) "TDEST" = VerifyResult.noRecipient ∧
    verifyTronscan (some txWrong) (some 100) "TDEST"
      = VerifyResult.recipientMismatch "TDEST" "TOTHER" ∧
    verifyTronscan (some txGood) (some 100) "tdest"
      = VerifyResult.verifiedOk 100 "TDest" true 800 ∧
    [verifyTronscan Option.none (some 100) "TDEST",
      verifyTronscan (some txUnconfirmed) (some 100) "TDEST",
      verifyTronscan (some tx98) (some 100) "TDEST",
      verifyTronscan (some txNoRecip) (some 100) "TDEST",
      verifyTronscan (some txWrong) (some 100) "TDEST"].Pairwise (· ≠ ·) := by
  have hne1 : ¬(("TDEST" : String) = "") := by decide
  have hne2 : ¬(("TOTHER" : String) = "") := by decide
  have hne3 : ¬(("TDest" : String) = "") := by decide
  have hne4 : ¬(lowerStr "TOTHER" = lowerStr "TDEST") := by decide
  have heq2 : lowerStr "TDest" = lowerStr "tdest" := by decide
  have hnf : ∀ e r, verifyTronscan Option.none e r = VerifyResult.notFound :=
    fun e r => rfl
  have hnc : ∀ (tx : TxData) e r, tx.confirmed = false →
      verifyTronscan (some tx) e r = VerifyResult.notConfirmed := by
    intro tx e r h
    simp [verifyTronscan, h]
  have h98 : verifyTronscan (some tx98) (some 100) "TDEST"
      = VerifyResult.amountMismatch 100 98 := by
    norm_num [verifyTronscan, extractTransfer, recipientCheck, jsOrStr, tx98, hne1]
  have hNoR : verifyTronscan (some txNoRecip) (some 100) "TDEST"
      = VerifyResult.noRecipient := by
    norm_num [verifyTronscan, extractTransfer, fallbackTrigger, recipientCheck, txNoRecip]
  have hWr : verifyTronscan (some txWrong) (some 100) "TDEST"
      = VerifyResult.recipientMismatch "TDEST" "TOTHER" := by
    norm_num [verifyTronscan, extractTransfer, recipientCheck, jsOrStr, txWrong, hne2, hne4]
  have hGood : verifyTronscan (some txGood) (some 100) "tdest"
      = VerifyResult.verifiedOk 100 "TDest" true 800 := by
    norm_num [verifyTronscan, extractTransfer, recipientCheck, jsOrStr, txGood, hne3, heq2]
  refine ⟨hnf, hnc, h98, hNoR, hWr, hGood, ?_⟩
  rw [hnf, hnc txUnconfirmed (some 100) "TDEST" rfl, h98, hNoR, hWr]
  decide

theorem c7_verify_witness :
    verifyTronscan (some txUnconfirmed) (some 100) "TDEST"
      = VerifyResult.notConfirmed :=
  c7_verify_failure_modes.2.1 txUnconfirmed (some 100) "TDEST" rfl

/-- C10: when the transfer amount cannot be extracted from the payload
(the parsed amount is 0) but a recipient can be, the 1% amount-tolerance
check is skipped even though an expected amount was supplied, and the
call returns verified:true with amount 0. -/
theorem c10_zero_amount_skips_tolerance (tx : TxData) (e : ℚ) (to_ : String)
    (hc : tx.confirmed = true) (hext : extractTransfer tx = (0, to_))
    (hto : to_ ≠ "") :
    verifyTronscan (some tx) (some e) to_
      = VerifyResult.verifiedOk 0 to_ true tx.timestamp := by
  unfold verifyTronscan
  dsimp only
  rw [hc, if_neg (by decide), hext]
  dsimp only
  rw [if_neg (fun h => lt_irrefl 0 h.2.1)]
  unfold recipientCheck
  rw [if_neg hto, if_neg (fun h => h rfl), hc]

theorem c10_zero_amount_witness :
    verifyTronscan (some txZeroAmt) (some 100) "TADDR"
      = VerifyResult.verifiedOk 0 "TADDR" true 950 :=
  c10_zero_amount_skips_tolerance txZeroAmt 100 "TADDR" rfl rfl (by decide)

end WhiteAgency
